import Mathlib

/-!
# ConfigFineProfilingCtrl

A shallow embedding of the controller in
`informant/app/scripts/controllers/config/fine-profiling.js`.

The controller is a closure over one private variable (`originalConfig`) and
the fields it reads and writes on `$scope`.  Each callback of the source is a
function on that state.  A callback that dereferences `$scope.config` or
`$scope.data` while it is still `undefined` throws a `TypeError` in the
source; here it returns `none`.

JavaScript values are kept untyped, as in the source: a setting holds a
primitive JSON value, numbers are integers (the thresholds are integer
milliseconds), and `===` on primitives is equality of `JsVal`.
Objects are passed by value, so `angular.copy` has nothing to separate: the
snapshot and the live configuration are two fields of the state and an edit
writes only the live one.
-/

namespace FineProfiling

/-! ## JavaScript values -/

/-- A primitive JavaScript value. -/
inductive JsVal where
  | undefined
  | null
  | bool (b : Bool)
  | num (n : Int)
  | str (s : String)
  deriving DecidableEq, Repr

namespace JsVal

/-- The truthiness test of `if (x)` and of `x && y`. -/
def truthy : JsVal → Bool
  | undefined => false
  | null => false
  | bool b => b
  | num n => n != 0
  | str s => s != ""

end JsVal

/-- A plain object with primitive properties, in insertion order. The first
entry for a key is the property; a later entry for the same key is never
read. -/
abbrev Obj := List (String × JsVal)

namespace Obj

/-- The own property names of `o`. -/
def keys (o : Obj) : List String := o.map Prod.fst

/-- Property read `o[k]`: `undefined` when the property is missing. -/
def get : Obj → String → JsVal
  | [], _ => JsVal.undefined
  | (k', v') :: rest, k => if k' = k then v' else get rest k

/-- Property write `o[k] = v`: replaces the property in place, or adds it
at the end. -/
def set : Obj → String → JsVal → Obj
  | [], k, v => [(k, v)]
  | (k', v') :: rest, k, v =>
    if k' = k then (k, v) :: rest else (k', v') :: set rest k v

end Obj

/-! ## The two library functions the controller calls on the configuration

`angular.equals` and `angular.copy` belong to AngularJS, not to the
controller. They are written here as the library documents them, on objects
with primitive properties: property order is irrelevant, and properties whose
name begins with `$` are ignored by the comparison. -/

/-- The test `key.charAt(0) === '$'` of `angular.equals`. -/
def dollarKey (k : String) : Bool := k.data.head? == some '$'

/-- The object branch of `angular.equals(o1, o2)`: every property of `o1`
whose name does not start with `$` has an equal value in `o2`, and every
property of `o2` that was not compared is `$`-named or `undefined`. -/
def objEquals (o1 o2 : Obj) : Bool :=
  let keySet := o1.keys.filter (fun k => !dollarKey k)
  keySet.all (fun k => decide (o1.get k = o2.get k)) &&
    o2.keys.all (fun k => keySet.contains k || dollarKey k ||
      decide (o2.get k = JsVal.undefined))

/-- The function `angular.equals` on two values that are each `undefined`
(`none`) or an object. -/
def angularEquals : Option Obj → Option Obj → Bool
  | none, none => true
  | some o1, some o2 => objEquals o1 o2
  | _, _ => false

/-- The function `angular.copy` on an object: a value equal to its source. -/
def angularCopy (o : Obj) : Obj := o.map (fun p => (p.1, p.2))

/-! ## Controller state -/

/-- The result of `httpErrors.get(data, status)`. -/
structure HttpError where
  headline : JsVal
  detail : JsVal
  deriving DecidableEq, Repr

/-- The object `$scope.data`: the calculated properties. -/
structure EditData where
  fineStoreThresholdOverride : JsVal
  fineStoreThresholdMillis : JsVal
  deriving DecidableEq, Repr

/-- The fields of `$scope` the controller reads and writes. -/
structure Scope where
  loaded : JsVal
  config : Option Obj
  generalStoreThresholdMillis : JsVal
  data : Option EditData
  httpError : Option HttpError
  deriving DecidableEq, Repr

/-- The controller: its private `originalConfig` and its scope. -/
structure Ctrl where
  originalConfig : Option Obj
  scope : Scope
  deriving DecidableEq, Repr

/-- The controller as constructed, before any response has arrived. -/
def Ctrl.init : Ctrl :=
  { originalConfig := none
    scope :=
      { loaded := JsVal.undefined
        config := none
        generalStoreThresholdMillis := JsVal.undefined
        data := none
        httpError := none } }

/-- The body of a successful read of `backend/config/fine-profiling-section`. -/
structure ReadResponse where
  config : Obj
  generalStoreThresholdMillis : JsVal
  deriving DecidableEq, Repr

/-- What a callback does to the `deferred` handed to `save`. -/
inductive DeferredCall where
  | resolve (v : JsVal)
  | reject (v : JsVal)
  deriving DecidableEq, Repr

/-! ## The callbacks -/

/-- The function `$scope.hasChanges`:
`originalConfig && !angular.equals($scope.config, originalConfig)`. -/
def hasChanges (c : Ctrl) : JsVal :=
  match c.originalConfig with
  | none => JsVal.undefined
  | some orig => JsVal.bool (!angularEquals c.scope.config (some orig))

/-- The function `$scope.save`, up to the response: the request body it hands
to `$http.post`, which is the configuration as it is when `save` is called. -/
def save (c : Ctrl) : Option Obj := c.scope.config

/-- The `.success` callback of `save`, called with the response body. -/
def saveSuccess (c : Ctrl) (data : JsVal) : Option (Ctrl × DeferredCall) :=
  match c.scope.config with
  | none => none
  | some cfg =>
    let cfg1 := cfg.set "version" data
    some ({ originalConfig := some (angularCopy cfg1)
            scope := { c.scope with config := some cfg1 } },
          DeferredCall.resolve (JsVal.str "Saved"))

/-- The message of the 412 branch. -/
def conflictMessage : String :=
  "Someone else has updated this configuration, please reload and try again"

/-- The `.error` callback of `save`, called with the response body and the
status. The classifier `httpErrors.get` is a collaborator of the controller. -/
def saveError {β : Type} (httpErrorsGet : β → Int → HttpError)
    (c : Ctrl) (data : β) (status : Int) : Ctrl × DeferredCall :=
  if status = 412 then
    (c, DeferredCall.reject (JsVal.str conflictMessage))
  else
    let e := httpErrorsGet data status
    ({ c with scope := { c.scope with httpError := some e } },
      DeferredCall.reject e.headline)

/-- The `.success` callback of the initial read, up to the registration of
the watch. -/
def loadSuccess (c : Ctrl) (data : ReadResponse) : Ctrl :=
  let cfg := data.config
  let d : EditData :=
    if cfg.get "storeThresholdMillis" ≠ JsVal.num (-1) then
      { fineStoreThresholdOverride := JsVal.bool true
        fineStoreThresholdMillis := cfg.get "storeThresholdMillis" }
    else
      { fineStoreThresholdOverride := JsVal.bool false
        fineStoreThresholdMillis := JsVal.str "" }
  { originalConfig := some (angularCopy cfg)
    scope :=
      { c.scope with
        loaded := JsVal.bool true
        config := some cfg
        generalStoreThresholdMillis := data.generalStoreThresholdMillis
        data := some d } }

/-- The `.error` callback of the initial read. -/
def loadError {β : Type} (httpErrorsGet : β → Int → HttpError)
    (c : Ctrl) (data : β) (status : Int) : Ctrl :=
  { c with scope := { c.scope with httpError := some (httpErrorsGet data status) } }

/-- The watched expression
`[data.fineStoreThresholdOverride, data.fineStoreThresholdMillis]`; a
missing `data` gives `undefined` for both, as scope expressions do. -/
def watched (c : Ctrl) : JsVal × JsVal :=
  match c.scope.data with
  | none => (JsVal.undefined, JsVal.undefined)
  | some d => (d.fineStoreThresholdOverride, d.fineStoreThresholdMillis)

/-- The listener of the watch, called with `newValue`. -/
def watchListener (c : Ctrl) (newValue : JsVal × JsVal) : Option Ctrl :=
  match c.scope.data, c.scope.config with
  | some d, some cfg =>
    if newValue.1.truthy then
      let millis :=
        if d.fineStoreThresholdMillis = JsVal.str "" then
          c.scope.generalStoreThresholdMillis
        else d.fineStoreThresholdMillis
      some { c with
        scope := { c.scope with
          data := some { d with fineStoreThresholdMillis := millis }
          config := some (cfg.set "storeThresholdMillis" millis) } }
    else
      some { c with
        scope := { c.scope with
          data := some { d with fineStoreThresholdMillis := JsVal.str "" }
          config := some (cfg.set "storeThresholdMillis" (JsVal.num (-1))) } }
  | _, _ => none

/-- One run of the watch: the listener called with the current value of the
watched expression. The digest makes this call once after the watch is
registered and again whenever the watched pair has changed, the listener's
own writes included. -/
def project (c : Ctrl) : Option Ctrl := watchListener c (watched c)

/-! ## Edits made through the view -/

/-- An assignment the view makes to a bound model. -/
inductive Edit where
  | setOverride (v : JsVal)
  | setMillis (v : JsVal)
  | setSetting (k : String) (v : JsVal)
  deriving DecidableEq, Repr

/-- The assignment of one edit. -/
def applyEdit (c : Ctrl) : Edit → Option Ctrl
  | Edit.setOverride v =>
    match c.scope.data with
    | none => none
    | some d =>
      some { c with scope := { c.scope with
        data := some { d with fineStoreThresholdOverride := v } } }
  | Edit.setMillis v =>
    match c.scope.data with
    | none => none
    | some d =>
      some { c with scope := { c.scope with
        data := some { d with fineStoreThresholdMillis := v } } }
  | Edit.setSetting k v =>
    match c.scope.config with
    | none => none
    | some cfg =>
      some { c with scope := { c.scope with config := some (cfg.set k v) } }

/-- An assignment to one of the two calculated properties. These are the
properties the watch observes; an assignment to a setting of the
configuration is not one of them and triggers no run of the listener. -/
inductive WatchedEdit where
  | setOverride (v : JsVal)
  | setMillis (v : JsVal)
  deriving DecidableEq, Repr

/-- The assignment a watched edit makes. -/
def WatchedEdit.toEdit : WatchedEdit → Edit
  | WatchedEdit.setOverride v => Edit.setOverride v
  | WatchedEdit.setMillis v => Edit.setMillis v

/-- An edit to a watched property followed by the run of the watch it
triggers. -/
def editStep (c : Ctrl) (e : WatchedEdit) : Option Ctrl :=
  (applyEdit c e.toEdit).bind project

/-- A sequence of edits to the watched properties, each followed by the run
of the watch. -/
def runEdits : Ctrl → List WatchedEdit → Option Ctrl
  | c, [] => some c
  | c, e :: es => (editStep c e).bind (fun c1 => runEdits c1 es)

/-- The value of `config.storeThresholdMillis`. -/
def storeThresholdMillis (c : Ctrl) : JsVal :=
  match c.scope.config with
  | none => JsVal.undefined
  | some cfg => cfg.get "storeThresholdMillis"

/-! ## Predicates used in the statements, and example states -/

/-- A state in which the read has succeeded: the configuration and the
calculated properties exist. -/
def Ctrl.isLoaded (c : Ctrl) : Bool :=
  c.scope.config.isSome && c.scope.data.isSome

/-- What one run of the listener establishes: with a truthy override the
setting is the override value, and that value is not `''` unless the general
threshold is; with a falsy override the value is `''` and the setting `-1`. -/
def Projected (c : Ctrl) : Prop :=
  ∃ d cfg, c.scope.data = some d ∧ c.scope.config = some cfg ∧
    (d.fineStoreThresholdOverride.truthy = true →
      cfg.get "storeThresholdMillis" = d.fineStoreThresholdMillis ∧
      (c.scope.generalStoreThresholdMillis ≠ JsVal.str "" →
        d.fineStoreThresholdMillis ≠ JsVal.str "")) ∧
    (d.fineStoreThresholdOverride.truthy = false →
      d.fineStoreThresholdMillis = JsVal.str "" ∧
      cfg.get "storeThresholdMillis" = JsVal.num (-1))

/-- The override value the listener leaves. -/
def projectedMillis (g : JsVal) (d : EditData) : JsVal :=
  if d.fineStoreThresholdOverride.truthy then
    if d.fineStoreThresholdMillis = JsVal.str "" then g else d.fineStoreThresholdMillis
  else JsVal.str ""

/-- The setting the listener writes. -/
def projectedSetting (g : JsVal) (d : EditData) : JsVal :=
  if d.fineStoreThresholdOverride.truthy then projectedMillis g d else JsVal.num (-1)

/-- A classifier for the examples: the headline names the status. -/
def sampleClassifier (body : String) (status : Int) : HttpError :=
  { headline := JsVal.str (if status = 500 then "Internal Server Error" else "Error")
    detail := JsVal.str body }

/-- A loaded controller for the examples: one edited setting, not yet saved. -/
def sampleDirty : Ctrl :=
  { originalConfig :=
      some [("intervalMillis", JsVal.num 50), ("storeThresholdMillis", JsVal.num (-1)),
        ("version", JsVal.str "v1")]
    scope :=
      { loaded := JsVal.bool true
        config :=
          some [("intervalMillis", JsVal.num 20), ("storeThresholdMillis", JsVal.num (-1)),
            ("version", JsVal.str "v1")]
        generalStoreThresholdMillis := JsVal.num 1000
        data := some { fineStoreThresholdOverride := JsVal.bool false
                       fineStoreThresholdMillis := JsVal.str "" }
        httpError := none } }

/-- The read response of the example scenario: no override stored, general
threshold 1000. -/
def sampleResponse : ReadResponse :=
  { config := [("storeThresholdMillis", JsVal.num (-1)), ("version", JsVal.str "v1")]
    generalStoreThresholdMillis := JsVal.num 1000 }

/-! ## Properties of objects and of the library functions -/

theorem Obj.get_set_same (o : Obj) (k : String) (v : JsVal) :
    (o.set k v).get k = v := by
  induction o with
  | nil => simp [Obj.set, Obj.get]
  | cons p rest ih =>
    obtain ⟨k1, v1⟩ := p
    by_cases h : k1 = k
    · simp [Obj.set, Obj.get, h]
    · simp [Obj.set, Obj.get, h, ih]

theorem Obj.get_set_other (o : Obj) (k k1 : String) (v : JsVal) (h : k1 ≠ k) :
    (o.set k v).get k1 = o.get k1 := by
  induction o with
  | nil => simp [Obj.set, Obj.get, Ne.symm h]
  | cons p rest ih =>
    obtain ⟨k2, v2⟩ := p
    by_cases h2 : k2 = k
    · subst h2
      simp [Obj.set, Obj.get, Ne.symm h]
    · by_cases h3 : k2 = k1
      · subst h3
        simp [Obj.set, Obj.get, h2]
      · simp [Obj.set, Obj.get, h2, h3, ih]

theorem Obj.get_set_get (o : Obj) (k k1 : String) :
    (o.set k (o.get k)).get k1 = o.get k1 := by
  by_cases h : k1 = k
  · subst h
    exact Obj.get_set_same o k1 _
  · exact Obj.get_set_other o k k1 _ h

theorem Obj.mem_keys_set (o : Obj) (k k1 : String) (v : JsVal)
    (h : k1 ∈ o.keys) : k1 ∈ (o.set k v).keys := by
  induction o with
  | nil => simp [Obj.keys] at h
  | cons p rest ih =>
    obtain ⟨k2, v2⟩ := p
    simp only [Obj.keys, List.map_cons, List.mem_cons] at h
    by_cases h2 : k2 = k
    · subst h2
      rcases h with h | h
      · simp [Obj.set, Obj.keys, h]
      · simp only [Obj.set, if_true, Obj.keys, List.map_cons, List.mem_cons]
        exact Or.inr h
    · simp only [Obj.set, h2, if_false, Obj.keys, List.map_cons, List.mem_cons]
      rcases h with h | h
      · exact Or.inl h
      · exact Or.inr (ih h)

theorem angularCopy_eq (o : Obj) : angularCopy o = o := by
  simp [angularCopy]

/-- Two objects with the same property values, the second having no
property name the first lacks, are equal for `angular.equals`. -/
theorem objEquals_of_get (o1 o2 : Obj) (hget : ∀ k, o1.get k = o2.get k)
    (hkeys : ∀ k, k ∈ o2.keys → k ∈ o1.keys) : objEquals o1 o2 = true := by
  simp only [objEquals, Bool.and_eq_true, List.all_eq_true, decide_eq_true_eq,
    Bool.or_eq_true]
  refine ⟨fun k _ => hget k, fun k hk => ?_⟩
  by_cases hd : dollarKey k = true
  · exact Or.inl (Or.inr hd)
  · refine Or.inl (Or.inl ?_)
    have hm : k ∈ List.filter (fun k => !dollarKey k) o1.keys :=
      List.mem_filter.mpr ⟨hkeys k hk, by simpa using hd⟩
    simpa using hm

theorem objEquals_refl (o : Obj) : objEquals o o = true :=
  objEquals_of_get o o (fun _ => rfl) (fun _ h => h)

theorem objEquals_set_get (o : Obj) (k : String) :
    objEquals (o.set k (o.get k)) o = true :=
  objEquals_of_get _ _ (Obj.get_set_get o k) (fun k1 h => Obj.mem_keys_set o k k1 _ h)

theorem Obj.set_set (o : Obj) (k : String) (v w : JsVal) :
    (o.set k v).set k w = o.set k w := by
  induction o with
  | nil => simp [Obj.set]
  | cons p rest ih =>
    obtain ⟨k1, v1⟩ := p
    by_cases h : k1 = k
    · simp [Obj.set, h]
    · simp [Obj.set, h, ih]

/-! ## The state the watch leaves -/

theorem isLoaded_iff (c : Ctrl) :
    c.isLoaded = true ↔ ∃ d cfg, c.scope.data = some d ∧ c.scope.config = some cfg := by
  unfold Ctrl.isLoaded
  cases hd : c.scope.data <;> cases hc : c.scope.config <;> simp

theorem Projected.isLoaded {c : Ctrl} (h : Projected c) : c.isLoaded = true := by
  obtain ⟨d, cfg, hd, hc, _⟩ := h
  exact (isLoaded_iff c).mpr ⟨d, cfg, hd, hc⟩

theorem project_eq (c : Ctrl) (d : EditData) (cfg : Obj)
    (hd : c.scope.data = some d) (hc : c.scope.config = some cfg) :
    project c = some { c with scope := { c.scope with
      data := some { d with
        fineStoreThresholdMillis := projectedMillis c.scope.generalStoreThresholdMillis d }
      config := some (cfg.set "storeThresholdMillis"
        (projectedSetting c.scope.generalStoreThresholdMillis d)) } } := by
  by_cases ht : d.fineStoreThresholdOverride.truthy = true
  · simp [project, watchListener, watched, hd, hc, ht, projectedMillis, projectedSetting]
  · simp [project, watchListener, watched, hd, hc, ht, projectedMillis, projectedSetting]

theorem project_projected (c : Ctrl) (h : c.isLoaded = true) :
    ∃ c1, project c = some c1 ∧ Projected c1 ∧
      c1.scope.generalStoreThresholdMillis = c.scope.generalStoreThresholdMillis ∧
      c1.originalConfig = c.originalConfig := by
  obtain ⟨d, cfg, hd, hc⟩ := (isLoaded_iff c).mp h
  refine ⟨_, project_eq c d cfg hd hc, ?_, rfl, rfl⟩
  refine ⟨_, _, rfl, rfl, fun ht => ⟨?_, fun hg => ?_⟩, fun hf => ⟨?_, ?_⟩⟩
  · have ht1 : d.fineStoreThresholdOverride.truthy = true := ht
    simp [Obj.get_set_same, projectedSetting, ht1]
  · have ht1 : d.fineStoreThresholdOverride.truthy = true := ht
    have hg1 : c.scope.generalStoreThresholdMillis ≠ JsVal.str "" := hg
    show projectedMillis c.scope.generalStoreThresholdMillis d ≠ JsVal.str ""
    by_cases hm : d.fineStoreThresholdMillis = JsVal.str ""
    · simpa [projectedMillis, ht1, hm] using hg1
    · simp [projectedMillis, ht1, hm]
  · have hf1 : d.fineStoreThresholdOverride.truthy = false := hf
    show projectedMillis c.scope.generalStoreThresholdMillis d = JsVal.str ""
    simp [projectedMillis, hf1]
  · have hf1 : d.fineStoreThresholdOverride.truthy = false := hf
    simp [Obj.get_set_same, projectedSetting, hf1]

theorem applyEdit_isLoaded (c : Ctrl) (e : Edit) (h : c.isLoaded = true) :
    ∃ c1, applyEdit c e = some c1 ∧ c1.isLoaded = true ∧
      c1.scope.generalStoreThresholdMillis = c.scope.generalStoreThresholdMillis ∧
      c1.originalConfig = c.originalConfig := by
  obtain ⟨d, cfg, hd, hc⟩ := (isLoaded_iff c).mp h
  cases e with
  | setOverride v =>
    refine ⟨{ c with scope := { c.scope with
      data := some { d with fineStoreThresholdOverride := v } } }, ?_, ?_, rfl, rfl⟩
    · simp [applyEdit, hd]
    · simp [Ctrl.isLoaded, hc]
  | setMillis v =>
    refine ⟨{ c with scope := { c.scope with
      data := some { d with fineStoreThresholdMillis := v } } }, ?_, ?_, rfl, rfl⟩
    · simp [applyEdit, hd]
    · simp [Ctrl.isLoaded, hc]
  | setSetting k v =>
    refine ⟨{ c with scope := { c.scope with config := some (cfg.set k v) } },
      ?_, ?_, rfl, rfl⟩
    · simp [applyEdit, hc]
    · simp [Ctrl.isLoaded, hd]

/-- An assignment to a setting leaves the watched pair as it was, so the
digest that follows it does not call the listener. -/
theorem applyEdit_setSetting_watched (c c1 : Ctrl) (k : String) (v : JsVal)
    (h : applyEdit c (Edit.setSetting k v) = some c1) : watched c1 = watched c := by
  cases hc : c.scope.config with
  | none => simp [applyEdit, hc] at h
  | some cfg =>
    simp only [applyEdit, hc, Option.some.injEq] at h
    subst h
    rfl

theorem editStep_projected (c : Ctrl) (e : WatchedEdit) (h : c.isLoaded = true) :
    ∃ c1, editStep c e = some c1 ∧ Projected c1 ∧
      c1.scope.generalStoreThresholdMillis = c.scope.generalStoreThresholdMillis ∧
      c1.originalConfig = c.originalConfig := by
  obtain ⟨c1, h1, hl, hg, ho⟩ := applyEdit_isLoaded c e.toEdit h
  obtain ⟨c2, h2, hp, hg2, ho2⟩ := project_projected c1 hl
  exact ⟨c2, by simp [editStep, h1, h2], hp, hg2.trans hg, ho2.trans ho⟩

theorem runEdits_isLoaded (es : List WatchedEdit) (c : Ctrl) (h : c.isLoaded = true) :
    ∃ c1, runEdits c es = some c1 ∧ c1.isLoaded = true ∧
      (es ≠ [] → Projected c1) ∧
      c1.scope.generalStoreThresholdMillis = c.scope.generalStoreThresholdMillis ∧
      c1.originalConfig = c.originalConfig := by
  induction es generalizing c with
  | nil => exact ⟨c, rfl, h, fun hne => absurd rfl hne, rfl, rfl⟩
  | cons e es ih =>
    obtain ⟨c1, h1, hp, hg, ho⟩ := editStep_projected c e h
    obtain ⟨c2, h2, hl2, hp2, hg2, ho2⟩ := ih c1 hp.isLoaded
    refine ⟨c2, by simp [runEdits, h1, h2], hl2, fun _ => ?_, hg2.trans hg, ho2.trans ho⟩
    by_cases hes : es = []
    · subst hes
      simp [runEdits] at h2
      exact h2 ▸ hp
    · exact hp2 hes

/-! ## The dirty check -/

/-- C7: `hasChanges()` is truthy exactly when a snapshot exists and the live
configuration is not deeply equal to it. It is `undefined` on the controller
as constructed, the error callback of the read does not change it, and it is
`true` after an edit whenever the edited configuration is not deeply equal
to the snapshot. -/
theorem hasChanges_truthy_iff (c : Ctrl) :
    ((hasChanges c).truthy = true ↔
      ∃ snap, c.originalConfig = some snap ∧
        angularEquals c.scope.config (some snap) = false) ∧
    hasChanges Ctrl.init = JsVal.undefined ∧
    (∀ (β : Type) (httpErrorsGet : β → Int → HttpError) (body : β) (status : Int),
      hasChanges (loadError httpErrorsGet c body status) = hasChanges c ∧
      (hasChanges (loadError httpErrorsGet Ctrl.init body status)).truthy = false) ∧
    (∀ (e : Edit) (c1 : Ctrl) (snap : Obj), applyEdit c e = some c1 →
      c1.originalConfig = some snap →
      angularEquals c1.scope.config (some snap) = false →
      hasChanges c1 = JsVal.bool true) := by
  refine ⟨?_, rfl, fun β g body status => ⟨rfl, rfl⟩, ?_⟩
  · unfold hasChanges
    cases h : c.originalConfig with
    | none => simp [JsVal.truthy]
    | some orig => simp [JsVal.truthy]
  · intro e c1 snap _ h1 h2
    simp [hasChanges, h1, h2]

/-- C7, on a loaded controller whose user has edited one setting: the edited
configuration differs from the snapshot and `hasChanges()` is `true`. -/
theorem hasChanges_truthy_iff_witness :
    hasChanges
      { originalConfig := some [("intervalMillis", JsVal.num 50)]
        scope :=
          { loaded := JsVal.bool true
            config := some [("intervalMillis", JsVal.num 50)]
            generalStoreThresholdMillis := JsVal.num 1000
            data := none
            httpError := none } } = JsVal.bool false ∧
    hasChanges
      { originalConfig := some [("intervalMillis", JsVal.num 50)]
        scope :=
          { loaded := JsVal.bool true
            config := some [("intervalMillis", JsVal.num 20)]
            generalStoreThresholdMillis := JsVal.num 1000
            data := none
            httpError := none } } = JsVal.bool true :=
  ⟨by decide,
   (hasChanges_truthy_iff
      { originalConfig := some [("intervalMillis", JsVal.num 50)]
        scope :=
          { loaded := JsVal.bool true
            config := some [("intervalMillis", JsVal.num 50)]
            generalStoreThresholdMillis := JsVal.num 1000
            data := none
            httpError := none } }).2.2.2
      (Edit.setSetting "intervalMillis" (JsVal.num 20)) _
      [("intervalMillis", JsVal.num 50)] (by decide) (by decide) (by decide)⟩

/-! ## Saving -/

/-- C1: on status 412 the error callback of `save` returns the controller
exactly as it was (configuration, snapshot and `httpError` included, so
`hasChanges()` keeps its value), whatever the classifier and the response
body are, and rejects the deferred with the conflict message. -/
theorem saveError_conflict (β : Type) (httpErrorsGet : β → Int → HttpError)
    (c : Ctrl) (body : β) :
    saveError httpErrorsGet c body 412 =
      (c, DeferredCall.reject (JsVal.str
        "Someone else has updated this configuration, please reload and try again")) ∧
    (saveError httpErrorsGet c body 412).1.scope.config = c.scope.config ∧
    (saveError httpErrorsGet c body 412).1.originalConfig = c.originalConfig ∧
    (saveError httpErrorsGet c body 412).1.scope.httpError = c.scope.httpError ∧
    hasChanges (saveError httpErrorsGet c body 412).1 = hasChanges c := by
  have h : saveError httpErrorsGet c body 412 =
      (c, DeferredCall.reject (JsVal.str
        "Someone else has updated this configuration, please reload and try again")) := by
    simp [saveError, conflictMessage]
  rw [h]
  exact ⟨rfl, rfl, rfl, rfl, rfl⟩

/-- C8: on a status other than 412 the error callback of `save` stores
`httpErrors.get(body, status)` in `httpError`, rejects the deferred with the
headline of that result, and leaves the configuration, the snapshot and the
other fields of the scope as they were, so `hasChanges()` keeps its value. -/
theorem saveError_classified (β : Type) (httpErrorsGet : β → Int → HttpError)
    (c : Ctrl) (body : β) (status : Int) (hstatus : status ≠ 412) :
    (saveError httpErrorsGet c body status).1.scope.httpError =
      some (httpErrorsGet body status) ∧
    (saveError httpErrorsGet c body status).2 =
      DeferredCall.reject (httpErrorsGet body status).headline ∧
    (saveError httpErrorsGet c body status).1.scope.config = c.scope.config ∧
    (saveError httpErrorsGet c body status).1.originalConfig = c.originalConfig ∧
    (saveError httpErrorsGet c body status).1.scope.data = c.scope.data ∧
    (saveError httpErrorsGet c body status).1.scope.loaded = c.scope.loaded ∧
    (saveError httpErrorsGet c body status).1.scope.generalStoreThresholdMillis =
      c.scope.generalStoreThresholdMillis ∧
    hasChanges (saveError httpErrorsGet c body status).1 = hasChanges c := by
  simp [saveError, hstatus, hasChanges]

/-- C8 at status 500 on a controller with an unsaved edit. -/
theorem saveError_classified_witness :
    (500 : Int) ≠ 412 ∧
    (saveError sampleClassifier sampleDirty "boom" 500).2 =
      DeferredCall.reject (JsVal.str "Internal Server Error") ∧
    hasChanges (saveError sampleClassifier sampleDirty "boom" 500).1 = JsVal.bool true :=
  ⟨by decide,
   (saveError_classified String sampleClassifier sampleDirty "boom" 500 (by decide)).2.1,
   by decide⟩

/-- C2: on a controller with a configuration, the success callback of
`save` writes the returned token to `config.version`, leaves every other
setting as it was, makes the snapshot a copy of that configuration (equal to
it, and deeply equal for `angular.equals`), so that `hasChanges()` is
`false`, and resolves the deferred with `'Saved'`. -/
theorem saveSuccess_snapshot (c : Ctrl) (cfg : Obj) (v : JsVal)
    (hcfg : c.scope.config = some cfg) :
    ∃ c1 cfg1, saveSuccess c v = some (c1, DeferredCall.resolve (JsVal.str "Saved")) ∧
      c1.scope.config = some cfg1 ∧
      cfg1.get "version" = v ∧
      (∀ k, k ≠ "version" → cfg1.get k = cfg.get k) ∧
      c1.originalConfig = some cfg1 ∧
      angularEquals c1.scope.config c1.originalConfig = true ∧
      hasChanges c1 = JsVal.bool false := by
  refine ⟨{ originalConfig := some (cfg.set "version" v)
            scope := { c.scope with config := some (cfg.set "version" v) } },
    cfg.set "version" v, ?_, rfl, Obj.get_set_same _ _ _,
    fun k hk => Obj.get_set_other _ _ _ _ hk, rfl, ?_, ?_⟩
  · simp [saveSuccess, hcfg, angularCopy_eq]
  · simp [angularEquals, objEquals_refl]
  · simp [hasChanges, angularEquals, objEquals_refl]

/-- C2 on a controller with an unsaved edit, the server returning `"v2"`. -/
theorem saveSuccess_snapshot_witness :
    ∃ c1 cfg1, saveSuccess sampleDirty (JsVal.str "v2") =
        some (c1, DeferredCall.resolve (JsVal.str "Saved")) ∧
      c1.scope.config = some cfg1 ∧
      cfg1.get "version" = JsVal.str "v2" ∧
      (∀ k, k ≠ "version" → cfg1.get k =
        Obj.get [("intervalMillis", JsVal.num 20),
          ("storeThresholdMillis", JsVal.num (-1)), ("version", JsVal.str "v1")] k) ∧
      c1.originalConfig = some cfg1 ∧
      angularEquals c1.scope.config c1.originalConfig = true ∧
      hasChanges c1 = JsVal.bool false :=
  saveSuccess_snapshot sampleDirty _ (JsVal.str "v2") rfl

/-! ## The projection -/

/-- C3 as stated fails: after the load of the example scenario the user
ticks the override and enters `-1`; the watch has run after each edit, the
override is `true`, and `config.storeThresholdMillis` is `-1`. -/
theorem sentinel_iff_override_off_fails :
    ∃ c, runEdits (loadSuccess Ctrl.init sampleResponse)
        [WatchedEdit.setOverride (JsVal.bool true),
          WatchedEdit.setMillis (JsVal.num (-1))] = some c ∧
      (watched c).1 = JsVal.bool true ∧
      storeThresholdMillis c = JsVal.num (-1) ∧
      ¬ (storeThresholdMillis c = JsVal.num (-1) ↔ (watched c).1 = JsVal.bool false) :=
  ⟨_, rfl, by decide, by decide, by decide⟩

/-- What the listener guarantees about the sentinel, in terms of the state
it leaves. -/
theorem Projected.sentinel {c : Ctrl} (h : Projected c) :
    ((watched c).1.truthy = false →
      storeThresholdMillis c = JsVal.num (-1) ∧ (watched c).2 = JsVal.str "") ∧
    ((watched c).1.truthy = true → storeThresholdMillis c = (watched c).2) ∧
    (storeThresholdMillis c = JsVal.num (-1) ↔
      ((watched c).1.truthy = false ∨ (watched c).2 = JsVal.num (-1))) := by
  obtain ⟨d, cfg, hd, hc, ht, hf⟩ := h
  simp only [watched, storeThresholdMillis, hd, hc]
  refine ⟨fun h0 => ⟨(hf h0).2, (hf h0).1⟩, fun h1 => (ht h1).1, ?_⟩
  by_cases hb : d.fineStoreThresholdOverride.truthy = true
  · rw [(ht hb).1]
    simp [hb]
  · have hb0 : d.fineStoreThresholdOverride.truthy = false := by simpa using hb
    simp [hb0, (hf hb0).2]

/-- C3, amended: from any loaded state and for any general threshold, after
the first run of the watch, and after any non-empty sequence of edits each
followed by a run of the watch, a falsy override gives
`config.storeThresholdMillis == -1` and an empty override value, a truthy
override gives `config.storeThresholdMillis` equal to the override value,
and so `config.storeThresholdMillis == -1` exactly when the override is off
or the override value is `-1`. -/
theorem sentinel_iff_override_off_or_minus_one (c : Ctrl) (es : List WatchedEdit)
    (e : WatchedEdit)
    (hloaded : c.isLoaded = true) :
    (∃ c1, project c = some c1 ∧
      ((watched c1).1.truthy = false →
        storeThresholdMillis c1 = JsVal.num (-1) ∧ (watched c1).2 = JsVal.str "") ∧
      ((watched c1).1.truthy = true → storeThresholdMillis c1 = (watched c1).2) ∧
      (storeThresholdMillis c1 = JsVal.num (-1) ↔
        ((watched c1).1.truthy = false ∨ (watched c1).2 = JsVal.num (-1)))) ∧
    (∃ c2, runEdits c (es ++ [e]) = some c2 ∧
      ((watched c2).1.truthy = false →
        storeThresholdMillis c2 = JsVal.num (-1) ∧ (watched c2).2 = JsVal.str "") ∧
      ((watched c2).1.truthy = true → storeThresholdMillis c2 = (watched c2).2) ∧
      (storeThresholdMillis c2 = JsVal.num (-1) ↔
        ((watched c2).1.truthy = false ∨ (watched c2).2 = JsVal.num (-1)))) := by
  constructor
  · obtain ⟨c1, h1, hp, _⟩ := project_projected c hloaded
    exact ⟨c1, h1, hp.sentinel⟩
  · obtain ⟨c2, h2, _, hp, _⟩ := runEdits_isLoaded (es ++ [e]) c hloaded
    exact ⟨c2, h2, (hp (by simp)).sentinel⟩

/-- C3, amended, on the example scenario: the override ticked, then `-1`
entered. -/
theorem sentinel_iff_override_off_or_minus_one_witness :
    (loadSuccess Ctrl.init sampleResponse).isLoaded = true ∧
    ∃ c2, runEdits (loadSuccess Ctrl.init sampleResponse)
        ([WatchedEdit.setOverride (JsVal.bool true)] ++
          [WatchedEdit.setMillis (JsVal.num (-1))]) =
          some c2 ∧
      ((watched c2).1.truthy = false →
        storeThresholdMillis c2 = JsVal.num (-1) ∧ (watched c2).2 = JsVal.str "") ∧
      ((watched c2).1.truthy = true → storeThresholdMillis c2 = (watched c2).2) ∧
      (storeThresholdMillis c2 = JsVal.num (-1) ↔
        ((watched c2).1.truthy = false ∨ (watched c2).2 = JsVal.num (-1))) :=
  ⟨by decide,
   (sentinel_iff_override_off_or_minus_one (loadSuccess Ctrl.init sampleResponse)
      [WatchedEdit.setOverride (JsVal.bool true)] (WatchedEdit.setMillis (JsVal.num (-1)))
      (by decide)).2⟩

theorem loadSuccess_isLoaded (c0 : Ctrl) (resp : ReadResponse) :
    (loadSuccess c0 resp).isLoaded = true := by
  simp [loadSuccess, Ctrl.isLoaded]

theorem loadSuccess_general (c0 : Ctrl) (resp : ReadResponse) :
    (loadSuccess c0 resp).scope.generalStoreThresholdMillis =
      resp.generalStoreThresholdMillis := rfl

theorem loadSuccess_agrees (c0 : Ctrl) (resp : ReadResponse)
    (hstm : resp.config.get "storeThresholdMillis" ≠ JsVal.str "") :
    (watched (loadSuccess c0 resp)).1.truthy = true →
      (watched (loadSuccess c0 resp)).2 ≠ JsVal.str "" ∧
      (watched (loadSuccess c0 resp)).2 = storeThresholdMillis (loadSuccess c0 resp) := by
  by_cases h : resp.config.get "storeThresholdMillis" = JsVal.num (-1)
  · simp [loadSuccess, watched, storeThresholdMillis, h, JsVal.truthy]
  · simp [loadSuccess, watched, storeThresholdMillis, h, JsVal.truthy, hstm]

theorem Projected.agrees {c : Ctrl} (h : Projected c)
    (hg : c.scope.generalStoreThresholdMillis ≠ JsVal.str "") :
    (watched c).1.truthy = true →
      (watched c).2 ≠ JsVal.str "" ∧ (watched c).2 = storeThresholdMillis c := by
  obtain ⟨d, cfg, hd, hc, ht, _⟩ := h
  simp only [watched, storeThresholdMillis, hd, hc]
  exact fun h1 => ⟨(ht h1).2 hg, (ht h1).1.symm⟩

/-- C4: after a successful load whose general threshold and stored
threshold are not `''` (both are integers in the read response), in the
state the load callback leaves, in the state after the first run of the
watch, and in every state reached from either by edits to the override or
to the override value, each followed by a run of the watch: whenever the
override is truthy, the override value is not `''` and equals
`config.storeThresholdMillis`. -/
theorem override_value_agrees (c0 : Ctrl) (resp : ReadResponse) (es : List WatchedEdit)
    (hg : resp.generalStoreThresholdMillis ≠ JsVal.str "")
    (hstm : resp.config.get "storeThresholdMillis" ≠ JsVal.str "") :
    ((watched (loadSuccess c0 resp)).1.truthy = true →
      (watched (loadSuccess c0 resp)).2 ≠ JsVal.str "" ∧
      (watched (loadSuccess c0 resp)).2 = storeThresholdMillis (loadSuccess c0 resp)) ∧
    (∃ c1, runEdits (loadSuccess c0 resp) es = some c1 ∧
      ((watched c1).1.truthy = true →
        (watched c1).2 ≠ JsVal.str "" ∧ (watched c1).2 = storeThresholdMillis c1)) ∧
    (∃ c1 c2, project (loadSuccess c0 resp) = some c1 ∧
      runEdits c1 es = some c2 ∧
      ((watched c1).1.truthy = true →
        (watched c1).2 ≠ JsVal.str "" ∧ (watched c1).2 = storeThresholdMillis c1) ∧
      ((watched c2).1.truthy = true →
        (watched c2).2 ≠ JsVal.str "" ∧ (watched c2).2 = storeThresholdMillis c2)) := by
  have hl := loadSuccess_isLoaded c0 resp
  refine ⟨loadSuccess_agrees c0 resp hstm, ?_, ?_⟩
  · obtain ⟨c1, h1, _, hp, hg1, _⟩ := runEdits_isLoaded es _ hl
    refine ⟨c1, h1, ?_⟩
    by_cases hes : es = []
    · subst hes
      simp only [runEdits, Option.some.injEq] at h1
      subst h1
      exact loadSuccess_agrees c0 resp hstm
    · exact (hp hes).agrees (by rw [hg1, loadSuccess_general]; exact hg)
  · obtain ⟨c1, h1, hp1, hg1, _⟩ := project_projected _ hl
    have hgc1 : c1.scope.generalStoreThresholdMillis ≠ JsVal.str "" := by
      rw [hg1, loadSuccess_general]; exact hg
    obtain ⟨c2, h2, _, hp2, hg2, _⟩ := runEdits_isLoaded es c1 hp1.isLoaded
    refine ⟨c1, c2, h1, h2, hp1.agrees hgc1, ?_⟩
    by_cases hes : es = []
    · subst hes
      simp only [runEdits, Option.some.injEq] at h2
      subst h2
      exact hp1.agrees hgc1
    · exact (hp2 hes).agrees (by rw [hg2]; exact hgc1)

/-- C4 on the example scenario, the user ticking the override and then
clearing the value. -/
theorem override_value_agrees_witness :
    sampleResponse.generalStoreThresholdMillis ≠ JsVal.str "" ∧
    sampleResponse.config.get "storeThresholdMillis" ≠ JsVal.str "" ∧
    ∃ c1, runEdits (loadSuccess Ctrl.init sampleResponse)
        [WatchedEdit.setOverride (JsVal.bool true),
          WatchedEdit.setMillis (JsVal.str "")] = some c1 ∧
      ((watched c1).1.truthy = true →
        (watched c1).2 ≠ JsVal.str "" ∧ (watched c1).2 = storeThresholdMillis c1) :=
  ⟨by decide, by decide,
   (override_value_agrees Ctrl.init sampleResponse
      [WatchedEdit.setOverride (JsVal.bool true), WatchedEdit.setMillis (JsVal.str "")]
      (by decide) (by decide)).2.1⟩

/-- C5: in a loaded state whose override value is `''`, ticking the
override and running the watch sets the override value and
`config.storeThresholdMillis` to the general threshold, whatever it is, and
leaves every other setting, the snapshot and the general threshold as they
were. -/
theorem override_on_takes_general (c : Ctrl) (d : EditData) (cfg : Obj)
    (hd : c.scope.data = some d) (hc : c.scope.config = some cfg)
    (hempty : d.fineStoreThresholdMillis = JsVal.str "") :
    ∃ c1 cfg1, editStep c (WatchedEdit.setOverride (JsVal.bool true)) = some c1 ∧
      c1.scope.data = some
        { fineStoreThresholdOverride := JsVal.bool true
          fineStoreThresholdMillis := c.scope.generalStoreThresholdMillis } ∧
      c1.scope.config = some cfg1 ∧
      cfg1.get "storeThresholdMillis" = c.scope.generalStoreThresholdMillis ∧
      (∀ k, k ≠ "storeThresholdMillis" → cfg1.get k = cfg.get k) ∧
      c1.originalConfig = c.originalConfig ∧
      c1.scope.generalStoreThresholdMillis = c.scope.generalStoreThresholdMillis := by
  refine ⟨{ c with scope := { c.scope with
      data := some
        { fineStoreThresholdOverride := JsVal.bool true
          fineStoreThresholdMillis := c.scope.generalStoreThresholdMillis }
      config := some (cfg.set "storeThresholdMillis" c.scope.generalStoreThresholdMillis) } },
    cfg.set "storeThresholdMillis" c.scope.generalStoreThresholdMillis,
    ?_, rfl, rfl, Obj.get_set_same _ _ _, fun k hk => Obj.get_set_other _ _ _ _ hk, rfl, rfl⟩
  simp [editStep, WatchedEdit.toEdit, applyEdit, hd, project, watchListener, watched, hc,
    hempty, JsVal.truthy]

/-- C5 on the example scenario after its load: the general threshold is
1000 and the version is untouched. -/
theorem override_on_takes_general_witness :
    ∃ c1 cfg1, editStep (loadSuccess Ctrl.init sampleResponse)
        (WatchedEdit.setOverride (JsVal.bool true)) = some c1 ∧
      c1.scope.data = some
        { fineStoreThresholdOverride := JsVal.bool true
          fineStoreThresholdMillis := JsVal.num 1000 } ∧
      c1.scope.config = some cfg1 ∧
      cfg1.get "storeThresholdMillis" = JsVal.num 1000 ∧
      (∀ k, k ≠ "storeThresholdMillis" → cfg1.get k = sampleResponse.config.get k) ∧
      c1.originalConfig = (loadSuccess Ctrl.init sampleResponse).originalConfig ∧
      c1.scope.generalStoreThresholdMillis = JsVal.num 1000 :=
  override_on_takes_general (loadSuccess Ctrl.init sampleResponse)
    { fineStoreThresholdOverride := JsVal.bool false
      fineStoreThresholdMillis := JsVal.str "" }
    sampleResponse.config rfl rfl rfl

/-- C9: the run of the watch is idempotent. On every state a second run
gives what the first gave; and when the first run returns a state, the run
on that state returns it unchanged, so the watched pair is the one the
digest has just recorded and no third run follows. On a loaded state the
run does return a state. -/
theorem project_idempotent (c : Ctrl) :
    (project c).bind project = project c ∧
    (∀ c1, project c = some c1 →
      project c1 = some c1 ∧
      ∀ c2, project c1 = some c2 → watched c2 = watched c1) ∧
    (c.isLoaded = true → ∃ c1, project c = some c1) := by
  have key : ∀ c1, project c = some c1 → project c1 = some c1 := by
    intro c1 h1
    cases hd : c.scope.data with
    | none => simp [project, watchListener, hd] at h1
    | some d =>
      cases hc : c.scope.config with
      | none => simp [project, watchListener, hd, hc] at h1
      | some cfg =>
        rw [project_eq c d cfg hd hc] at h1
        simp only [Option.some.injEq] at h1
        subst h1
        rw [project_eq _ _ _ rfl rfl]
        by_cases ht : d.fineStoreThresholdOverride.truthy = true
        · by_cases hm : d.fineStoreThresholdMillis = JsVal.str ""
          · by_cases hg : c.scope.generalStoreThresholdMillis = JsVal.str ""
            · simp [projectedMillis, projectedSetting, ht, hm, hg, Obj.set_set]
            · simp [projectedMillis, projectedSetting, ht, hm, hg, Obj.set_set]
          · simp [projectedMillis, projectedSetting, ht, hm, Obj.set_set]
        · simp [projectedMillis, projectedSetting, ht, Obj.set_set]
  refine ⟨?_, fun c1 h1 => ⟨key c1 h1, fun c2 h2 => ?_⟩, fun hl => ?_⟩
  · cases h : project c with
    | none => rfl
    | some c1 => simpa using key c1 h
  · rw [key c1 h1] at h2
    simp only [Option.some.injEq] at h2
    rw [h2]
  · obtain ⟨c1, h1, _⟩ := project_projected c hl
    exact ⟨c1, h1⟩

/-- C9 on the example scenario with the override ticked: the first run
writes 1000, the second changes nothing. -/
theorem project_idempotent_witness :
    ∃ c1, project
        { originalConfig := some sampleResponse.config
          scope :=
            { loaded := JsVal.bool true
              config := some sampleResponse.config
              generalStoreThresholdMillis := JsVal.num 1000
              data := some { fineStoreThresholdOverride := JsVal.bool true
                             fineStoreThresholdMillis := JsVal.str "" }
              httpError := none } } = some c1 ∧
      storeThresholdMillis c1 = JsVal.num 1000 ∧
      project c1 = some c1 :=
  ⟨_, rfl, by decide,
   ((project_idempotent
      { originalConfig := some sampleResponse.config
        scope :=
          { loaded := JsVal.bool true
            config := some sampleResponse.config
            generalStoreThresholdMillis := JsVal.num 1000
            data := some { fineStoreThresholdOverride := JsVal.bool true
                           fineStoreThresholdMillis := JsVal.str "" }
            httpError := none } }).2.1 _ rfl).1⟩

/-! ## Loading -/

/-- C6: for every read response, after the success callback of the read:
`loaded` is `true`, the live configuration and the snapshot are the
response's configuration, deeply equal, `hasChanges()` is `false`, the
general threshold is the response's, and the calculated properties are
`{false, ''}` when the stored threshold is `-1` and `{true, stored
threshold}` otherwise. When the stored threshold is not `''` (it is an
integer in the read response), the first run of the watch on that state
returns a state where all of this still holds: every setting keeps its
value, the snapshot and the calculated properties are unchanged, and
`hasChanges()` is `false`. -/
theorem loadSuccess_state (c0 : Ctrl) (resp : ReadResponse) :
    (loadSuccess c0 resp).scope.loaded = JsVal.bool true ∧
    (loadSuccess c0 resp).scope.config = some resp.config ∧
    (loadSuccess c0 resp).originalConfig = some resp.config ∧
    angularEquals (loadSuccess c0 resp).scope.config
      (loadSuccess c0 resp).originalConfig = true ∧
    hasChanges (loadSuccess c0 resp) = JsVal.bool false ∧
    (loadSuccess c0 resp).scope.generalStoreThresholdMillis =
      resp.generalStoreThresholdMillis ∧
    (loadSuccess c0 resp).scope.data = some
      (if resp.config.get "storeThresholdMillis" = JsVal.num (-1) then
        { fineStoreThresholdOverride := JsVal.bool false
          fineStoreThresholdMillis := JsVal.str "" }
      else
        { fineStoreThresholdOverride := JsVal.bool true
          fineStoreThresholdMillis := resp.config.get "storeThresholdMillis" }) ∧
    (resp.config.get "storeThresholdMillis" ≠ JsVal.str "" →
      ∃ c1 cfg1, project (loadSuccess c0 resp) = some c1 ∧
        c1.scope.loaded = JsVal.bool true ∧
        c1.scope.config = some cfg1 ∧
        (∀ k, cfg1.get k = resp.config.get k) ∧
        c1.originalConfig = some resp.config ∧
        angularEquals c1.scope.config c1.originalConfig = true ∧
        hasChanges c1 = JsVal.bool false ∧
        c1.scope.generalStoreThresholdMillis = resp.generalStoreThresholdMillis ∧
        c1.scope.data = (loadSuccess c0 resp).scope.data) := by
  have hdata : (loadSuccess c0 resp).scope.data = some
      (if resp.config.get "storeThresholdMillis" = JsVal.num (-1) then
        { fineStoreThresholdOverride := JsVal.bool false
          fineStoreThresholdMillis := JsVal.str "" }
      else
        { fineStoreThresholdOverride := JsVal.bool true
          fineStoreThresholdMillis := resp.config.get "storeThresholdMillis" }) := by
    by_cases h : resp.config.get "storeThresholdMillis" = JsVal.num (-1)
    · simp [loadSuccess, h]
    · simp [loadSuccess, h]
  have horig : (loadSuccess c0 resp).originalConfig = some resp.config := by
    simp [loadSuccess, angularCopy_eq]
  refine ⟨rfl, rfl, horig, ?_, ?_, rfl, hdata, fun hstm => ?_⟩
  · rw [horig]
    simp [loadSuccess, angularEquals, objEquals_refl]
  · simp [hasChanges, horig]
    simp [loadSuccess, angularEquals, objEquals_refl]
  · have hp := project_eq (loadSuccess c0 resp) _ resp.config hdata rfl
    have hset : projectedSetting (loadSuccess c0 resp).scope.generalStoreThresholdMillis
        (if resp.config.get "storeThresholdMillis" = JsVal.num (-1) then
          { fineStoreThresholdOverride := JsVal.bool false
            fineStoreThresholdMillis := JsVal.str "" }
        else
          { fineStoreThresholdOverride := JsVal.bool true
            fineStoreThresholdMillis := resp.config.get "storeThresholdMillis" }) =
        resp.config.get "storeThresholdMillis" := by
      by_cases h : resp.config.get "storeThresholdMillis" = JsVal.num (-1)
      · simp [projectedSetting, h, JsVal.truthy]
      · simp [projectedSetting, projectedMillis, h, hstm, JsVal.truthy]
    have hmil : projectedMillis (loadSuccess c0 resp).scope.generalStoreThresholdMillis
        (if resp.config.get "storeThresholdMillis" = JsVal.num (-1) then
          { fineStoreThresholdOverride := JsVal.bool false
            fineStoreThresholdMillis := JsVal.str "" }
        else
          { fineStoreThresholdOverride := JsVal.bool true
            fineStoreThresholdMillis := resp.config.get "storeThresholdMillis" }) =
        (if resp.config.get "storeThresholdMillis" = JsVal.num (-1) then
          JsVal.str "" else resp.config.get "storeThresholdMillis") := by
      by_cases h : resp.config.get "storeThresholdMillis" = JsVal.num (-1)
      · simp [projectedMillis, h, JsVal.truthy]
      · simp [projectedMillis, h, hstm, JsVal.truthy]
    rw [hset, hmil] at hp
    refine ⟨_, resp.config.set "storeThresholdMillis"
      (resp.config.get "storeThresholdMillis"), hp, rfl, rfl,
      Obj.get_set_get _ _, horig, ?_, ?_, rfl, ?_⟩
    · rw [horig]
      simp [angularEquals, objEquals_set_get]
    · simp [hasChanges, horig, angularEquals, objEquals_set_get]
    · rw [hdata]
      by_cases h : resp.config.get "storeThresholdMillis" = JsVal.num (-1)
      · simp [h]
      · simp [h]

/-- C6 on the example scenario: stored threshold `-1`, version `"v1"`,
general threshold 1000. -/
theorem loadSuccess_state_witness :
    (loadSuccess Ctrl.init sampleResponse).scope.data = some
      { fineStoreThresholdOverride := JsVal.bool false
        fineStoreThresholdMillis := JsVal.str "" } ∧
    hasChanges (loadSuccess Ctrl.init sampleResponse) = JsVal.bool false ∧
    ∃ c1 cfg1, project (loadSuccess Ctrl.init sampleResponse) = some c1 ∧
      c1.scope.loaded = JsVal.bool true ∧
      c1.scope.config = some cfg1 ∧
      (∀ k, cfg1.get k = sampleResponse.config.get k) ∧
      c1.originalConfig = some sampleResponse.config ∧
      angularEquals c1.scope.config c1.originalConfig = true ∧
      hasChanges c1 = JsVal.bool false ∧
      c1.scope.generalStoreThresholdMillis = sampleResponse.generalStoreThresholdMillis ∧
      c1.scope.data = (loadSuccess Ctrl.init sampleResponse).scope.data :=
  ⟨(loadSuccess_state Ctrl.init sampleResponse).2.2.2.2.2.2.1,
   (loadSuccess_state Ctrl.init sampleResponse).2.2.2.2.1,
   (loadSuccess_state Ctrl.init sampleResponse).2.2.2.2.2.2.2 (by decide)⟩

/-! ## A save that overlaps an edit -/

/-- C10: on a controller with a configuration, let `save` post, then let
the user change a setting other than `version` to a value it did not have,
then let the success callback run. The posted body does not hold the new
value, the snapshot does, and `hasChanges()` is `false`. -/
theorem overlapping_edit_snapshotted (c : Ctrl) (cfg : Obj) (k : String) (x v : JsVal)
    (hcfg : c.scope.config = some cfg) (hk : k ≠ "version") (hx : cfg.get k ≠ x) :
    ∃ body c1 c2 snap, save c = some body ∧
      body.get k ≠ x ∧
      applyEdit c (Edit.setSetting k x) = some c1 ∧
      saveSuccess c1 v = some (c2, DeferredCall.resolve (JsVal.str "Saved")) ∧
      c2.originalConfig = some snap ∧
      snap.get k = x ∧
      snap.get "version" = v ∧
      hasChanges c2 = JsVal.bool false := by
  refine ⟨cfg, { c with scope := { c.scope with config := some (cfg.set k x) } },
    { originalConfig := some ((cfg.set k x).set "version" v)
      scope := { c.scope with config := some ((cfg.set k x).set "version" v) } },
    (cfg.set k x).set "version" v, hcfg, hx, ?_, ?_, rfl, ?_, Obj.get_set_same _ _ _, ?_⟩
  · simp [applyEdit, hcfg]
  · simp [saveSuccess, angularCopy_eq]
  · rw [Obj.get_set_other _ _ _ _ hk]
    exact Obj.get_set_same _ _ _
  · simp [hasChanges, angularEquals, objEquals_refl]

/-- C10 on a loaded, clean controller: the interval is changed from 50 to
20 while the save is in flight. -/
theorem overlapping_edit_snapshotted_witness :
    ∃ body c1 c2 snap,
      save (loadSuccess Ctrl.init
        { config := [("intervalMillis", JsVal.num 50), ("version", JsVal.str "v1")]
          generalStoreThresholdMillis := JsVal.num 1000 }) = some body ∧
      body.get "intervalMillis" ≠ JsVal.num 20 ∧
      applyEdit (loadSuccess Ctrl.init
        { config := [("intervalMillis", JsVal.num 50), ("version", JsVal.str "v1")]
          generalStoreThresholdMillis := JsVal.num 1000 })
        (Edit.setSetting "intervalMillis" (JsVal.num 20)) = some c1 ∧
      saveSuccess c1 (JsVal.str "v2") =
        some (c2, DeferredCall.resolve (JsVal.str "Saved")) ∧
      c2.originalConfig = some snap ∧
      snap.get "intervalMillis" = JsVal.num 20 ∧
      snap.get "version" = JsVal.str "v2" ∧
      hasChanges c2 = JsVal.bool false :=
  overlapping_edit_snapshotted
    (loadSuccess Ctrl.init
      { config := [("intervalMillis", JsVal.num 50), ("version", JsVal.str "v1")]
        generalStoreThresholdMillis := JsVal.num 1000 })
    [("intervalMillis", JsVal.num 50), ("version", JsVal.str "v1")]
    "intervalMillis" (JsVal.num 20) (JsVal.str "v2") rfl (by decide) (by decide)

end FineProfiling
